import Mathlib

/-!
Shallow embedding of the rust-filesize-formatter command-line program
(src/src/main.rs) and verification of the specification claims about it.

Modelling conventions:
- Rust f64 values are modelled by the type F64: finite values are exact
  rationals, plus positive infinity, negative infinity and NaN.  Finite
  float arithmetic is idealised as exact rational arithmetic (the spec
  describes the conversions as real-number products); the sign checks,
  the special values, and the saturating behaviour of the "as u64" cast
  are modelled exactly.
- Rust u64 values are natural numbers; the cast "x as u64" is the
  saturating, truncating cast that Rust performs (NaN to 0, clamping to
  [0, u64MAX], fractional part dropped toward zero).
- The float literal grammar of f64 from_str (sign, digits with optional
  point, optional exponent, and the words inf / infinity / nan, all
  case-insensitive) is implemented in rustParseF64, producing the exact
  decimal value.
- The format specifier {:.2} rounds the exact value to two decimal
  digits, ties to even; fmt2 renders it, disp2 is the rendered numeric
  value.
- modelMain is the whole program: it maps the program name and the list
  of positional arguments to the exit code and the two output streams.
-/

/-- Largest value of a 64-bit unsigned integer (u64::MAX in the source). -/
def u64MAX : ℕ := 18446744073709551615

/-- Model of Rust f64 values: finite values as exact rationals, plus the
infinities and NaN. -/
inductive F64 where
  | finite (q : ℚ)
  | inf
  | negInf
  | nan
deriving DecidableEq

/-- The Rust comparison size_input >= 0.0 from main (false for NaN). -/
def F64.ge0 : F64 → Bool
  | .finite q => decide (0 ≤ q)
  | .inf => true
  | .negInf => false
  | .nan => false

/-- The Rust comparison size < 0.0 from FileSize::new (false for NaN). -/
def F64.lt0 : F64 → Bool
  | .finite q => decide (q < 0)
  | .inf => false
  | .negInf => true
  | .nan => false

/-- Multiplication of an f64 by a positive finite constant (the KB, MB
and GB factors of the source). -/
def F64.mulConst : F64 → ℚ → F64
  | .finite q, k => .finite (q * k)
  | .inf, _ => .inf
  | .negInf, _ => .negInf
  | .nan, _ => .nan

/-- The Rust cast expression (x as u64): NaN goes to 0, the value is
clamped to [0, u64MAX], and the fractional part is truncated toward
zero. -/
def F64.toU64 : F64 → ℕ
  | .finite q => if q < 0 then 0 else min (Int.toNat ⌊q⌋) u64MAX
  | .inf => u64MAX
  | .negInf => 0
  | .nan => 0

/-- The predicate "the product of the magnitude with the factor k
exceeds the 64-bit unsigned range" (positive infinity always does). -/
def F64.productExceeds (v : F64) (k : ℚ) : Prop :=
  match v with
  | .finite q => (u64MAX : ℚ) < q * k
  | .inf => True
  | .negInf => False
  | .nan => False

/-- const KB: f64 = 1000.0 -/
def KB : ℚ := 1000

/-- const MB: f64 = 1_000_000.0 -/
def MB : ℚ := 1000000

/-- const GB: f64 = 1_000_000_000.0 -/
def GB : ℚ := 1000000000

/-- Numeric value of a list of decimal digit characters. -/
def digitsToNat (ds : List Char) : ℕ :=
  ds.foldl (fun a c => a * 10 + (c.toNat - 48)) 0

/-- Optional exponent part of the f64 literal grammar: either nothing,
or the letter e followed by an optional sign and one or more digits
(the input is already lowercased). -/
def parseExp : List Char → Option ℤ
  | [] => some 0
  | 'e' :: r =>
    match r with
    | '-' :: t =>
      if t ≠ [] ∧ t.all Char.isDigit then some (-(digitsToNat t : ℤ)) else none
    | '+' :: t =>
      if t ≠ [] ∧ t.all Char.isDigit then some ((digitsToNat t : ℤ)) else none
    | t =>
      if t ≠ [] ∧ t.all Char.isDigit then some ((digitsToNat t : ℤ)) else none
  | _ => none

/-- Number part of the f64 literal grammar: digits, an optional point
with further digits (at least one digit in total), and an optional
exponent; the exact decimal value is returned. -/
def parseNumber (cs : List Char) : Option ℚ :=
  let d1 := cs.takeWhile Char.isDigit
  let r1 := cs.drop d1.length
  match r1 with
  | '.' :: r2 =>
    let d2 := r2.takeWhile Char.isDigit
    let r3 := r2.drop d2.length
    if d1.length + d2.length = 0 then none
    else
      (parseExp r3).map fun e =>
        (digitsToNat (d1 ++ d2) : ℚ) * (10 : ℚ) ^ (e - (d2.length : ℤ))
  | _ =>
    if d1.length = 0 then none
    else (parseExp r1).map fun e => (digitsToNat d1 : ℚ) * (10 : ℚ) ^ e

/-- The grammar of str::parse::<f64> (an optional sign, then inf,
infinity, nan, or a number, everything case-insensitive), with the
finite values taken exactly. -/
def rustParseF64 (s : String) : Option F64 :=
  let cs := s.toLower.toList
  let sgn : Bool × List Char :=
    match cs with
    | '-' :: r => (true, r)
    | '+' :: r => (false, r)
    | r => (false, r)
  let neg := sgn.1
  let body := sgn.2
  if body = ['i', 'n', 'f'] ∨ body = ['i', 'n', 'f', 'i', 'n', 'i', 't', 'y'] then
    some (if neg then F64.negInf else F64.inf)
  else if body = ['n', 'a', 'n'] then some F64.nan
  else
    match parseNumber body with
    | some q => some (F64.finite (if neg then -q else q))
    | none => none

/-- enum FileSize from the source. -/
inductive FileSize where
  | Bytes (n : ℕ)
  | Kilobytes (v : F64)
  | Megabytes (v : F64)
  | Gigabytes (v : F64)
deriving DecidableEq

/-- FileSize::new from the source: rejects negative sizes, selects the
variant from the unit string, rejects unknown units. -/
def FileSize.new (size : F64) (unit : String) : Except String FileSize :=
  if size.lt0 then
    .error "Invalid file size. Size cannot be a negative number."
  else
    match unit with
    | "bytes" => .ok (.Bytes size.toU64)
    | "kb" => .ok (.Kilobytes size)
    | "mb" => .ok (.Megabytes size)
    | "gb" => .ok (.Gigabytes size)
    | _ => .error "Error: Invalid unit. Supported units: 'bytes', 'kb', 'mb', or 'gb'."

/-- FileSize::normalize_to_bytes from the source. -/
def FileSize.normalize_to_bytes : FileSize → ℕ
  | .Bytes n => n
  | .Kilobytes v => (v.mulConst KB).toU64
  | .Megabytes v => (v.mulConst MB).toU64
  | .Gigabytes v => (v.mulConst GB).toU64

/-- Nearest integer with ties going to the even integer: the rounding
of the Rust fixed-precision float formatting. -/
def roundHalfEven (x : ℚ) : ℤ :=
  if x - ⌊x⌋ < 1 / 2 then ⌊x⌋
  else if 1 / 2 < x - ⌊x⌋ then ⌊x⌋ + 1
  else if ⌊x⌋ % 2 = 0 then ⌊x⌋ else ⌊x⌋ + 1

/-- Numeric value shown by the format specifier {:.2}: the value
rounded to two decimal digits. -/
def disp2 (q : ℚ) : ℚ := ((roundHalfEven (q * 100) : ℤ) : ℚ) / 100

/-- Rendering of a non-negative value by the format specifier {:.2}:
integer part, point, exactly two decimal digits. -/
def fmt2 (q : ℚ) : String :=
  let n := (roundHalfEven (q * 100)).toNat
  toString (n / 100) ++ "." ++ (if n % 100 < 10 then "0" else "") ++ toString (n % 100)

/-- struct Sizes from the source. -/
structure Sizes where
  bytes : String
  kilobytes : String
  megabytes : String
  gigabytes : String
deriving DecidableEq

/-- Sizes::from_bytes from the source. -/
def Sizes.from_bytes (size_in_bytes : ℕ) : Sizes :=
  { bytes := toString size_in_bytes ++ " bytes"
  , kilobytes := fmt2 ((size_in_bytes : ℚ) / KB) ++ " kb"
  , megabytes := fmt2 ((size_in_bytes : ℚ) / MB) ++ " mb"
  , gigabytes := fmt2 ((size_in_bytes : ℚ) / GB) ++ " gb" }

/-- The Display implementation for Sizes: four writeln calls, one line
per unit, each with a three-space indent and a label. -/
def Sizes.display (s : Sizes) : String :=
  "   bytes: " ++ s.bytes ++ "\n" ++ "   kilobytes: " ++ s.kilobytes ++ "\n" ++
    "   megabytes: " ++ s.megabytes ++ "\n" ++ "   gigabytes: " ++ s.gigabytes ++ "\n"

/-- Validity of the lowercased unit string, as matched in main. -/
def unitValid (lu : String) : Bool :=
  decide (lu = "bytes" ∨ lu = "kb" ∨ lu = "mb" ∨ lu = "gb")

/-- Prefix test on character lists (first argument is the candidate
leading segment). -/
def startsWithL : List Char → List Char → Bool
  | [], _ => true
  | _ :: _, [] => false
  | b :: bs, a :: as => (b == a) && startsWithL bs as

/-- Containment of a character sequence somewhere in a list. -/
def hasSeqL (sub : List Char) : List Char → Bool
  | [] => startsWithL sub []
  | a :: t => startsWithL sub (a :: t) || hasSeqL sub t

/-- String::contains of the source, for plain string needles. -/
def strHasSeq (hay sub : String) : Bool := hasSeqL sub.toList hay.toList

/-- Result of one program run: process exit code, everything written to
standard output, everything written to standard error. -/
structure ProgResult where
  exitCode : ℕ
  stdout : String
  stderr : String
deriving DecidableEq

/-- The main function of the source, as a function from the program
name and the positional arguments to the run result.  The stages are in
source order: argument count check, magnitude parse and sign check,
unit check, then construction, normalization and display. -/
def modelMain (prog : String) (argv : List String) : ProgResult :=
  match argv with
  | [a1, a2] =>
    let input := a1 ++ " " ++ a2
    match rustParseF64 a1 with
    | some v =>
      if v.ge0 then
        let lu := a2.toLower
        if unitValid lu then
          match FileSize.new v lu with
          | .ok fs =>
            { exitCode := 0
            , stdout := "file size (" ++ input ++ "):\n" ++
                (Sizes.from_bytes fs.normalize_to_bytes).display ++ "\n"
            , stderr := "" }
          | .error e =>
            { exitCode :=
                if strHasSeq e "Invalid file size. Size cannot be a negative number." then 4
                else 2
            , stdout := ""
            , stderr := e ++ "\n" }
        else
          { exitCode := 2
          , stdout := ""
          , stderr := "Invalid unit: '" ++ a2 ++ "'. Supported units: 'bytes', 'kb', 'mb', or 'gb'.\n" }
      else
        { exitCode := 4
        , stdout := ""
        , stderr := "Invalid file size. Size cannot be a negative number.\n" }
    | none =>
      { exitCode := 4
      , stdout := ""
      , stderr := "Invalid file size: invalid float literal. Size cannot be a non-numeric value.\n" }
  | _ =>
    { exitCode := 2
    , stdout := ""
    , stderr := "Usage: " ++ prog ++ " <file_size> <unit (bytes/kb/mb/gb)>\n" }

instance : DecidableEq (Except String FileSize) := fun x y =>
  match x, y with
  | .ok a, .ok b =>
    if h : a = b then .isTrue (by rw [h]) else .isFalse (fun hc => h (Except.ok.inj hc))
  | .error a, .error b =>
    if h : a = b then .isTrue (by rw [h]) else .isFalse (fun hc => h (Except.error.inj hc))
  | .ok _, .error _ => .isFalse (fun hc => Except.noConfusion hc)
  | .error _, .ok _ => .isFalse (fun hc => Except.noConfusion hc)

theorem ge0_imp_not_lt0 (v : F64) (h : v.ge0 = true) : v.lt0 = false := by
  cases v with
  | finite q =>
    simp only [F64.ge0, decide_eq_true_eq] at h
    simp only [F64.lt0]
    exact decide_eq_false (not_lt.mpr h)
  | inf => rfl
  | negInf => simp [F64.ge0] at h
  | nan => rfl

theorem unitValid_cases (lu : String) (h : unitValid lu = true) :
    lu = "bytes" ∨ lu = "kb" ∨ lu = "mb" ∨ lu = "gb" :=
  of_decide_eq_true h

theorem new_ok_of_valid (v : F64) (hge : v.ge0 = true) (lu : String)
    (hu : unitValid lu = true) : ∃ fs, FileSize.new v lu = Except.ok fs := by
  have hlt := ge0_imp_not_lt0 v hge
  rcases unitValid_cases lu hu with h | h | h | h <;> subst h
  · exact ⟨.Bytes v.toU64, by simp [FileSize.new, hlt]⟩
  · exact ⟨.Kilobytes v, by simp [FileSize.new, hlt]⟩
  · exact ⟨.Megabytes v, by simp [FileSize.new, hlt]⟩
  · exact ⟨.Gigabytes v, by simp [FileSize.new, hlt]⟩

theorem modelMain_success (prog a1 a2 : String) (v : F64) (fs : FileSize)
    (hp : rustParseF64 a1 = some v) (hge : v.ge0 = true)
    (hu : unitValid a2.toLower = true) (hfs : FileSize.new v a2.toLower = .ok fs) :
    modelMain prog [a1, a2] =
      { exitCode := 0
      , stdout := "file size (" ++ (a1 ++ " " ++ a2) ++ "):\n" ++
          (Sizes.from_bytes fs.normalize_to_bytes).display ++ "\n"
      , stderr := "" } := by
  simp [modelMain, hp, hge, hu, hfs]

theorem toU64_eq_floor (q : ℚ) (h0 : 0 ≤ q) (hle : ⌊q⌋ ≤ (u64MAX : ℤ)) :
    (F64.finite q).toU64 = Int.toNat ⌊q⌋ := by
  simp only [F64.toU64, if_neg (not_lt.mpr h0)]
  exact min_eq_left (Int.toNat_le.mpr hle)

theorem toU64_sat (q : ℚ) (h : (u64MAX : ℚ) < q) : (F64.finite q).toU64 = u64MAX := by
  have h0 : (0 : ℚ) ≤ q := le_trans (by positivity) (le_of_lt h)
  simp only [F64.toU64, if_neg (not_lt.mpr h0)]
  refine min_eq_right ?_
  have hfl : (u64MAX : ℤ) ≤ ⌊q⌋ := Int.le_floor.mpr (by exact_mod_cast h.le)
  have h1 : (0 : ℤ) ≤ ⌊q⌋ := Int.floor_nonneg.mpr h0
  omega

theorem roundHalfEven_sub_abs (x : ℚ) : |(roundHalfEven x : ℚ) - x| ≤ 1 / 2 := by
  have hfl : (⌊x⌋ : ℚ) ≤ x := Int.floor_le x
  have hlt : x < ⌊x⌋ + 1 := Int.lt_floor_add_one x
  unfold roundHalfEven
  split_ifs with h1 h2 h3 <;> rw [abs_le] <;> constructor <;> push_cast <;> linarith

theorem disp2_sub_abs (q : ℚ) : |disp2 q - q| ≤ 1 / 200 := by
  have h2 : |((roundHalfEven (q * 100) : ℚ)) - q * 100| ≤ 1 / 2 := roundHalfEven_sub_abs _
  have h3 : disp2 q - q = (((roundHalfEven (q * 100) : ℚ)) - q * 100) / 100 := by
    unfold disp2; ring
  rw [h3, abs_div, abs_of_pos (by norm_num : (0 : ℚ) < 100)]
  linarith

theorem floor_div_sub_abs (q k : ℚ) (hk : 1000 ≤ k) :
    |((⌊q * k⌋ : ℚ)) / k - q| ≤ 1 / 1000 := by
  have hk0 : (0 : ℚ) < k := lt_of_lt_of_le (by norm_num) hk
  have e1 : ((⌊q * k⌋ : ℚ)) ≤ q * k := Int.floor_le _
  have e2 : q * k - 1 < ((⌊q * k⌋ : ℚ)) := Int.sub_one_lt_floor _
  have h3 : ((⌊q * k⌋ : ℚ)) / k - q = (((⌊q * k⌋ : ℚ)) - q * k) / k := by
    field_simp; ring
  have h4 : |((⌊q * k⌋ : ℚ)) - q * k| ≤ 1 := by
    rw [abs_le]; constructor <;> linarith
  rw [h3, abs_div, abs_of_pos hk0]
  calc |((⌊q * k⌋ : ℚ)) - q * k| / k ≤ 1 / k := (div_le_div_iff_of_pos_right hk0).mpr h4
    _ ≤ 1 / 1000 := one_div_le_one_div_of_le (by norm_num) hk

theorem normalize_core (q k : ℚ) (h0 : 0 ≤ q * k) (hle : ⌊q * k⌋ ≤ (u64MAX : ℤ)) :
    ((F64.mulConst (F64.finite q) k).toU64 : ℤ) = ⌊q * k⌋ := by
  show ((F64.finite (q * k)).toU64 : ℤ) = ⌊q * k⌋
  rw [toU64_eq_floor (q * k) h0 hle, Int.toNat_of_nonneg (Int.floor_nonneg.mpr h0)]

theorem roundtrip_bound (q k : ℚ) (h0 : 0 ≤ q) (hk : 1000 ≤ k)
    (hle : ⌊q * k⌋ ≤ (u64MAX : ℤ)) :
    |disp2 ((((F64.mulConst (F64.finite q) k).toU64 : ℕ) : ℚ) / k) - q| ≤ 1 / 100 := by
  have hqk : (0 : ℚ) ≤ q * k := mul_nonneg h0 (le_trans (by norm_num) hk)
  have hB : (((F64.mulConst (F64.finite q) k).toU64 : ℕ) : ℚ) = ((⌊q * k⌋ : ℚ)) := by
    have h := normalize_core q k hqk hle
    exact_mod_cast h
  rw [hB]
  have t1 : |disp2 (((⌊q * k⌋ : ℚ)) / k) - ((⌊q * k⌋ : ℚ)) / k| ≤ 1 / 200 := disp2_sub_abs _
  have t2 : |((⌊q * k⌋ : ℚ)) / k - q| ≤ 1 / 1000 := floor_div_sub_abs q k hk
  calc |disp2 (((⌊q * k⌋ : ℚ)) / k) - q|
      ≤ |disp2 (((⌊q * k⌋ : ℚ)) / k) - ((⌊q * k⌋ : ℚ)) / k| + |((⌊q * k⌋ : ℚ)) / k - q| :=
        abs_sub_le _ _ _
    _ ≤ 1 / 200 + 1 / 1000 := add_le_add t1 t2
    _ ≤ 1 / 100 := by norm_num

theorem normalize_sat (v : F64) (k : ℚ) (h : v.productExceeds k) :
    (v.mulConst k).toU64 = u64MAX := by
  cases v with
  | finite q =>
    show (F64.finite (q * k)).toU64 = u64MAX
    exact toU64_sat (q * k) h
  | inf => rfl
  | negInf => exact absurd h (by simp [F64.productExceeds])
  | nan => exact absurd h (by simp [F64.productExceeds])

/-- C1 (amended): for every invocation with exactly two positional
arguments whose magnitude text parses to a non-negative number and
whose unit text is not in the recognized set after lowercasing, the
program prints an error naming the invalid unit and the supported set
to standard error and exits with status 2.  The restriction on the
magnitude text is forced: main validates the magnitude before the
unit, so a non-numeric or negative magnitude exits with status 4
before the unit is ever inspected. -/
theorem claim_c1_unit_error (prog a1 a2 : String) (v : F64)
    (hp : rustParseF64 a1 = some v) (hge : v.ge0 = true)
    (hu : unitValid a2.toLower = false) :
    modelMain prog [a1, a2] =
      { exitCode := 2
      , stdout := ""
      , stderr := "Invalid unit: '" ++ a2 ++ "'. Supported units: 'bytes', 'kb', 'mb', or 'gb'.\n" } := by
  simp [modelMain, hp, hge, hu]

/-- C1 witness: magnitude text 5 with the unrecognized unit text tb
hits the unit error with exit status 2. -/
theorem claim_c1_unit_error_witness :
    modelMain "prog" ["5", "tb"] =
      { exitCode := 2
      , stdout := ""
      , stderr := "Invalid unit: 'tb'. Supported units: 'bytes', 'kb', 'mb', or 'gb'.\n" } :=
  claim_c1_unit_error "prog" "5" "tb" (F64.finite 5)
    (by with_unfolding_all rfl) (by with_unfolding_all rfl) (by with_unfolding_all rfl)

/-- C1 counterexample: the unit text tb is not recognized, yet with the
non-numeric magnitude text abc the program exits with status 4 from the
magnitude check, not with status 2 as the claim demands. -/
theorem claim_c1_cex :
    unitValid ("tb".toLower) = false ∧
    (modelMain "prog" ["abc", "tb"]).exitCode = 4 ∧
    (modelMain "prog" ["abc", "tb"]).exitCode ≠ 2 :=
  ⟨by with_unfolding_all rfl, by with_unfolding_all rfl,
    of_decide_eq_true (by with_unfolding_all rfl)⟩

/-- C2 (amended): for every validated non-negative finite magnitude m
in kilobytes, megabytes or gigabytes whose exact scaled value floors to
at most u64MAX, normalize_to_bytes returns exactly the floor of the
real-number product of m with 1000, 1000000 or 1000000000, truncated
toward zero and never rounded up, and the result is a non-negative
integer.  The range proviso is forced: beyond u64MAX the cast
saturates and the function returns u64MAX instead of the floor. -/
theorem claim_c2_normalize_floor (q : ℚ) (h0 : 0 ≤ q) :
    (⌊q * 1000⌋ ≤ (u64MAX : ℤ) →
      ((FileSize.Kilobytes (F64.finite q)).normalize_to_bytes : ℤ) = ⌊q * 1000⌋ ∧
        0 ≤ ⌊q * 1000⌋) ∧
    (⌊q * 1000000⌋ ≤ (u64MAX : ℤ) →
      ((FileSize.Megabytes (F64.finite q)).normalize_to_bytes : ℤ) = ⌊q * 1000000⌋ ∧
        0 ≤ ⌊q * 1000000⌋) ∧
    (⌊q * 1000000000⌋ ≤ (u64MAX : ℤ) →
      ((FileSize.Gigabytes (F64.finite q)).normalize_to_bytes : ℤ) = ⌊q * 1000000000⌋ ∧
        0 ≤ ⌊q * 1000000000⌋) := by
  refine ⟨fun h => ⟨?_, ?_⟩, fun h => ⟨?_, ?_⟩, fun h => ⟨?_, ?_⟩⟩
  · exact normalize_core q 1000 (mul_nonneg h0 (by norm_num)) h
  · exact Int.floor_nonneg.mpr (mul_nonneg h0 (by norm_num))
  · exact normalize_core q 1000000 (mul_nonneg h0 (by norm_num)) h
  · exact Int.floor_nonneg.mpr (mul_nonneg h0 (by norm_num))
  · exact normalize_core q 1000000000 (mul_nonneg h0 (by norm_num)) h
  · exact Int.floor_nonneg.mpr (mul_nonneg h0 (by norm_num))

/-- C2 witness: the magnitude 3/2 in kilobytes normalizes to exactly
1500 bytes, the floor of the real product. -/
theorem claim_c2_normalize_floor_witness :
    ((FileSize.Kilobytes (F64.finite ((3 : ℚ) / 2))).normalize_to_bytes : ℤ) =
      ⌊((3 : ℚ) / 2) * 1000⌋ :=
  ((claim_c2_normalize_floor ((3 : ℚ) / 2) (by norm_num)).1
    (of_decide_eq_true (by with_unfolding_all rfl))).1

set_option maxRecDepth 10000 in
/-- C2 counterexample: the finite non-negative magnitude 10 to the 17
in kilobytes has a real product of 10 to the 20 bytes, but
normalize_to_bytes saturates at u64MAX instead of returning the
floor. -/
theorem claim_c2_cex :
    (F64.finite (100000000000000000 : ℚ)).ge0 = true ∧
    (FileSize.Kilobytes (F64.finite (100000000000000000 : ℚ))).normalize_to_bytes = u64MAX ∧
    ((u64MAX : ℤ)) ≠ ⌊(100000000000000000 : ℚ) * 1000⌋ :=
  ⟨by with_unfolding_all rfl, of_decide_eq_true (by with_unfolding_all rfl),
    of_decide_eq_true (by with_unfolding_all rfl)⟩

/-- C4 (amended): for every non-negative integer magnitude m at most
u64MAX given with unit bytes, the construction stores exactly m, the
normalization returns exactly m with no loss, and the formatted bytes
field is m followed by the word bytes, so the round trip is exact.
The integrality proviso is forced: the source casts the f64 magnitude
with an "as u64" cast, which truncates a fractional magnitude. -/
theorem claim_c4_bytes_identity (n : ℕ) (h : n ≤ u64MAX) :
    FileSize.new (F64.finite (n : ℚ)) "bytes" = .ok (FileSize.Bytes n) ∧
    (FileSize.Bytes n).normalize_to_bytes = n ∧
    (Sizes.from_bytes n).bytes = toString n ++ " bytes" := by
  refine ⟨?_, rfl, rfl⟩
  have hlt : (F64.finite ((n : ℚ))).lt0 = false := by
    simp only [F64.lt0]
    exact decide_eq_false (not_lt.mpr (by positivity))
  have htu : (F64.finite ((n : ℚ))).toU64 = n := by
    simp only [F64.toU64, if_neg (not_lt.mpr (by positivity : (0 : ℚ) ≤ (n : ℚ)))]
    rw [Int.floor_natCast, Int.toNat_natCast]
    exact min_eq_left h
  simp [FileSize.new, hlt, htu]

/-- C4 witness: the integer magnitude 7 in bytes round-trips exactly. -/
theorem claim_c4_bytes_identity_witness :
    FileSize.new (F64.finite ((7 : ℕ) : ℚ)) "bytes" = .ok (FileSize.Bytes 7) ∧
    (FileSize.Bytes 7).normalize_to_bytes = 7 ∧
    (Sizes.from_bytes 7).bytes = toString 7 ++ " bytes" :=
  claim_c4_bytes_identity 7 (by norm_num [u64MAX])

/-- C4 counterexample: the non-negative magnitude 5/2 with unit bytes
is stored as 2 bytes, so the normalization is not the identity and the
round trip does not recover 5/2. -/
theorem claim_c4_cex :
    (F64.finite ((5 : ℚ) / 2)).ge0 = true ∧
    FileSize.new (F64.finite ((5 : ℚ) / 2)) "bytes" = .ok (FileSize.Bytes 2) ∧
    ((2 : ℚ)) ≠ (5 : ℚ) / 2 :=
  ⟨by with_unfolding_all rfl, by with_unfolding_all rfl,
    of_decide_eq_true (by with_unfolding_all rfl)⟩

/-- C5: for every invocation with exactly two positional arguments
whose magnitude text parses to a negative number, the program prints
the negative size diagnostic to standard error and exits with status
4, for every unit text, valid or invalid, because main validates the
magnitude before it looks at the unit. -/
theorem claim_c5_negative_exit4 (prog a1 a2 : String) (q : ℚ)
    (hp : rustParseF64 a1 = some (F64.finite q)) (hq : q < 0) :
    modelMain prog [a1, a2] =
      { exitCode := 4
      , stdout := ""
      , stderr := "Invalid file size. Size cannot be a negative number.\n" } := by
  have hge : (F64.finite q).ge0 = false := by
    simp only [F64.ge0]
    exact decide_eq_false (not_le.mpr hq)
  simp [modelMain, hp, hge]

/-- C5 witness: the magnitude text -5 with the invalid unit text tb
still reports the negative magnitude and exits with status 4. -/
theorem claim_c5_negative_exit4_witness :
    modelMain "prog" ["-5", "tb"] =
      { exitCode := 4
      , stdout := ""
      , stderr := "Invalid file size. Size cannot be a negative number.\n" } :=
  claim_c5_negative_exit4 "prog" "-5" "tb" (-5) (by with_unfolding_all rfl) (by norm_num)

/-- C3 (amended): for every successful invocation, standard output is
the echo line, then the four size lines in the order bytes, kilobytes,
megabytes, gigabytes, each with a three-space indent and a label, the
bytes line showing the integer byte count and the word bytes and the
other three showing the byte count divided by 1000, 1000000 and
1000000000 rendered by fmt2 with exactly two digits after the decimal
point and the unit abbreviation, followed by one extra newline, and
the process exits with status 0 with nothing on standard error.  The
extra newline is forced: the Display output of Sizes already ends with
a newline and main prints it with println, which appends another, so a
trailing blank line follows the four size lines. -/
theorem claim_c3_success_output (prog a1 a2 : String) (v : F64) (fs : FileSize)
    (hp : rustParseF64 a1 = some v) (hge : v.ge0 = true)
    (hu : unitValid a2.toLower = true) (hfs : FileSize.new v a2.toLower = .ok fs) :
    modelMain prog [a1, a2] =
      { exitCode := 0
      , stdout := "file size (" ++ (a1 ++ " " ++ a2) ++ "):\n" ++
          ("   bytes: " ++ (toString fs.normalize_to_bytes ++ " bytes") ++ "\n" ++
            "   kilobytes: " ++ (fmt2 ((fs.normalize_to_bytes : ℚ) / KB) ++ " kb") ++ "\n" ++
            "   megabytes: " ++ (fmt2 ((fs.normalize_to_bytes : ℚ) / MB) ++ " mb") ++ "\n" ++
            "   gigabytes: " ++ (fmt2 ((fs.normalize_to_bytes : ℚ) / GB) ++ " gb") ++ "\n") ++ "\n"
      , stderr := "" } :=
  modelMain_success prog a1 a2 v fs hp hge hu hfs

/-- C3 witness: the invocation with magnitude text 1 and unit text
bytes produces exactly the echoed line, the four size lines and the
trailing blank line, and exits with status 0. -/
theorem claim_c3_success_output_witness :
    modelMain "p" ["1", "bytes"] =
      { exitCode := 0
      , stdout := "file size (" ++ ("1" ++ " " ++ "bytes") ++ "):\n" ++
          ("   bytes: " ++ (toString (FileSize.Bytes 1).normalize_to_bytes ++ " bytes") ++ "\n" ++
            "   kilobytes: " ++ (fmt2 (((FileSize.Bytes 1).normalize_to_bytes : ℚ) / KB) ++ " kb") ++ "\n" ++
            "   megabytes: " ++ (fmt2 (((FileSize.Bytes 1).normalize_to_bytes : ℚ) / MB) ++ " mb") ++ "\n" ++
            "   gigabytes: " ++ (fmt2 (((FileSize.Bytes 1).normalize_to_bytes : ℚ) / GB) ++ " gb") ++ "\n") ++ "\n"
      , stderr := "" } :=
  claim_c3_success_output "p" "1" "bytes" (F64.finite 1) (FileSize.Bytes 1)
    (by with_unfolding_all rfl) (by with_unfolding_all rfl)
    (by with_unfolding_all rfl) (by with_unfolding_all rfl)

/-- C3 counterexample: on the success path the standard output is the
claimed five lines plus one extra trailing newline, so it is not
exactly the echo line followed by the four size lines: a trailing
blank line is also printed. -/
theorem claim_c3_cex :
    (modelMain "p" ["1", "bytes"]).stdout =
      "file size (1 bytes):\n   bytes: 1 bytes\n   kilobytes: 0.00 kb\n   megabytes: 0.00 mb\n   gigabytes: 0.00 gb\n" ++ "\n" ∧
    "file size (1 bytes):\n   bytes: 1 bytes\n   kilobytes: 0.00 kb\n   megabytes: 0.00 mb\n   gigabytes: 0.00 gb\n" ++ "\n" ≠
      "file size (1 bytes):\n   bytes: 1 bytes\n   kilobytes: 0.00 kb\n   megabytes: 0.00 mb\n   gigabytes: 0.00 gb\n" ∧
    (modelMain "p" ["1", "bytes"]).exitCode = 0 :=
  ⟨by with_unfolding_all rfl, of_decide_eq_true (by with_unfolding_all rfl),
    by with_unfolding_all rfl⟩

/-- C6 (amended): for every non-negative magnitude m in kilobytes,
megabytes or gigabytes whose exact scaled value floors to at most
u64MAX, normalizing and then formatting the byte count back in the
same unit with two decimal digits yields a displayed numeric value
within 1/100 of m.  The range proviso is forced: beyond u64MAX the
cast saturates and the round trip loses the magnitude entirely. -/
theorem claim_c6_roundtrip (q : ℚ) (h0 : 0 ≤ q) :
    (⌊q * 1000⌋ ≤ (u64MAX : ℤ) →
      |disp2 (((FileSize.Kilobytes (F64.finite q)).normalize_to_bytes : ℚ) / KB) - q| ≤ 1 / 100) ∧
    (⌊q * 1000000⌋ ≤ (u64MAX : ℤ) →
      |disp2 (((FileSize.Megabytes (F64.finite q)).normalize_to_bytes : ℚ) / MB) - q| ≤ 1 / 100) ∧
    (⌊q * 1000000000⌋ ≤ (u64MAX : ℤ) →
      |disp2 (((FileSize.Gigabytes (F64.finite q)).normalize_to_bytes : ℚ) / GB) - q| ≤ 1 / 100) := by
  refine ⟨fun h => ?_, fun h => ?_, fun h => ?_⟩
  · exact roundtrip_bound q 1000 h0 (by norm_num) h
  · exact roundtrip_bound q 1000000 h0 (by norm_num) h
  · exact roundtrip_bound q 1000000000 h0 (by norm_num) h

/-- C6 witness: the magnitude 3/2 in kilobytes normalizes to 1500
bytes and is displayed back as 1.50, within 1/100 of the input. -/
theorem claim_c6_roundtrip_witness :
    |disp2 (((FileSize.Kilobytes (F64.finite ((3 : ℚ) / 2))).normalize_to_bytes : ℚ) / KB) -
        (3 : ℚ) / 2| ≤ 1 / 100 :=
  (claim_c6_roundtrip ((3 : ℚ) / 2) (by norm_num)).1
    (of_decide_eq_true (by with_unfolding_all rfl))

set_option maxRecDepth 10000 in
/-- C6 counterexample: for the non-negative magnitude 10 to the 17 in
kilobytes the normalization saturates at u64MAX, and the kilobyte
value displayed back differs from the magnitude by far more than
1/100. -/
theorem claim_c6_cex :
    (F64.finite (100000000000000000 : ℚ)).ge0 = true ∧
    1 / 100 <
      |disp2 (((FileSize.Kilobytes (F64.finite (100000000000000000 : ℚ))).normalize_to_bytes : ℚ) / KB) -
        (100000000000000000 : ℚ)| :=
  ⟨by with_unfolding_all rfl, of_decide_eq_true (by with_unfolding_all rfl)⟩

/-- C7: for every magnitude text that parses to a validated
non-negative value and every two unit spellings with the same
lowercasing, one of them recognized, the program accepts the unit,
the normalized byte counts agree, the four formatted size lines
agree, and both invocations succeed with exit status 0; in
particular every case variant of a recognized unit behaves like the
lowercase spelling. -/
theorem claim_c7_case_insensitive (prog a1 u1 u2 : String) (v : F64)
    (hp : rustParseF64 a1 = some v) (hge : v.ge0 = true)
    (hlu : u1.toLower = u2.toLower) (hv : unitValid u1.toLower = true) :
    (∃ fs, FileSize.new v u1.toLower = Except.ok fs) ∧
    (FileSize.new v u1.toLower).map FileSize.normalize_to_bytes =
      (FileSize.new v u2.toLower).map FileSize.normalize_to_bytes ∧
    (FileSize.new v u1.toLower).map
        (fun fs => (Sizes.from_bytes fs.normalize_to_bytes).display) =
      (FileSize.new v u2.toLower).map
        (fun fs => (Sizes.from_bytes fs.normalize_to_bytes).display) ∧
    (modelMain prog [a1, u1]).exitCode = 0 ∧ (modelMain prog [a1, u2]).exitCode = 0 := by
  obtain ⟨fs, hfs⟩ := new_ok_of_valid v hge (u1.toLower) hv
  have hv2 : unitValid u2.toLower = true := by rw [← hlu]; exact hv
  have hfs2 : FileSize.new v u2.toLower = Except.ok fs := by rw [← hlu]; exact hfs
  refine ⟨⟨fs, hfs⟩, by rw [hlu], by rw [hlu], ?_, ?_⟩
  · rw [modelMain_success prog a1 u1 v fs hp hge hv hfs]
  · rw [modelMain_success prog a1 u2 v fs hp hge hv2 hfs2]

/-- C7 witness: the spellings KB and kb with magnitude text 5 give the
same normalized byte count and both succeed. -/
theorem claim_c7_case_insensitive_witness :
    (FileSize.new (F64.finite 5) ("KB".toLower)).map FileSize.normalize_to_bytes =
      (FileSize.new (F64.finite 5) ("kb".toLower)).map FileSize.normalize_to_bytes ∧
    (modelMain "p" ["5", "KB"]).exitCode = 0 ∧ (modelMain "p" ["5", "kb"]).exitCode = 0 := by
  have h := claim_c7_case_insensitive "p" "5" "KB" "kb" (F64.finite 5)
    (by with_unfolding_all rfl) (by with_unfolding_all rfl)
    (by with_unfolding_all rfl) (by with_unfolding_all rfl)
  exact ⟨h.2.1, h.2.2.2⟩

/-- C8: on every failure path the program writes nothing to standard
output, writes exactly one diagnostic line to standard error (the
usage case shows the invocation syntax inside that line), and
terminates with the documented exit code: 2 for a wrong argument
count, 4 for a non-numeric magnitude, 4 for a negative magnitude, 2
for an invalid unit; no partial success output is produced. -/
theorem claim_c8_failure_paths (prog : String) (argv : List String) :
    (argv.length ≠ 2 →
      modelMain prog argv =
        { exitCode := 2, stdout := ""
        , stderr := "Usage: " ++ prog ++ " <file_size> <unit (bytes/kb/mb/gb)>\n" }) ∧
    (∀ a1 a2, argv = [a1, a2] → rustParseF64 a1 = none →
      modelMain prog argv =
        { exitCode := 4, stdout := ""
        , stderr := "Invalid file size: invalid float literal. Size cannot be a non-numeric value.\n" }) ∧
    (∀ a1 a2 v, argv = [a1, a2] → rustParseF64 a1 = some v → v.ge0 = false →
      modelMain prog argv =
        { exitCode := 4, stdout := ""
        , stderr := "Invalid file size. Size cannot be a negative number.\n" }) ∧
    (∀ a1 a2 v, argv = [a1, a2] → rustParseF64 a1 = some v → v.ge0 = true →
        unitValid a2.toLower = false →
      modelMain prog argv =
        { exitCode := 2, stdout := ""
        , stderr := "Invalid unit: '" ++ a2 ++ "'. Supported units: 'bytes', 'kb', 'mb', or 'gb'.\n" }) := by
  refine ⟨?_, ?_, ?_, ?_⟩
  · intro h
    rcases argv with _ | ⟨a, _ | ⟨b, _ | ⟨c, t⟩⟩⟩
    · simp [modelMain]
    · simp [modelMain]
    · exact (h rfl).elim
    · simp [modelMain]
  · rintro a1 a2 rfl hp
    simp [modelMain, hp]
  · rintro a1 a2 v rfl hp hge
    simp [modelMain, hp, hge]
  · rintro a1 a2 v rfl hp hge hu
    simp [modelMain, hp, hge, hu]

/-- C8 witness: with no positional arguments the program prints only
the usage line to standard error and exits with status 2. -/
theorem claim_c8_failure_paths_witness :
    modelMain "p" [] =
      { exitCode := 2, stdout := ""
      , stderr := "Usage: " ++ "p" ++ " <file_size> <unit (bytes/kb/mb/gb)>\n" } :=
  (claim_c8_failure_paths "p" []).1 (by decide)

/-- C9: the magnitude text NaN parses successfully, fails the
non-negativity guard because every comparison with NaN is false, and
is therefore rejected through the negative-number branch: the program
prints the negative size diagnostic and exits with status 4, for any
valid unit. -/
theorem claim_c9_nan (prog u : String) (_hu : unitValid u.toLower = true) :
    rustParseF64 "NaN" = some F64.nan ∧
    modelMain prog ["NaN", u] =
      { exitCode := 4, stdout := ""
      , stderr := "Invalid file size. Size cannot be a negative number.\n" } := by
  have hp : rustParseF64 "NaN" = some F64.nan := by with_unfolding_all rfl
  exact ⟨hp, by simp [modelMain, hp, F64.ge0]⟩

/-- C9 witness: NaN with unit kb exits with status 4 and the negative
size diagnostic. -/
theorem claim_c9_nan_witness :
    modelMain "p" ["NaN", "kb"] =
      { exitCode := 4, stdout := ""
      , stderr := "Invalid file size. Size cannot be a negative number.\n" } :=
  (claim_c9_nan "p" "kb" (by with_unfolding_all rfl)).2

/-- C10: the magnitude text inf parses as positive infinity and passes
the non-negativity check, and for every validated magnitude whose
product with the unit factor exceeds the 64-bit unsigned range the
cast saturates, normalize_to_bytes returns u64MAX, and the program
still completes the success path with exit status 0. -/
theorem claim_c10_saturation (prog a1 u : String) (v : F64)
    (hp : rustParseF64 a1 = some v) (hge : v.ge0 = true)
    (hu : unitValid u.toLower = true) :
    (modelMain prog [a1, u]).exitCode = 0 ∧
    rustParseF64 "inf" = some F64.inf ∧ F64.ge0 F64.inf = true ∧
    (v.productExceeds KB → (FileSize.Kilobytes v).normalize_to_bytes = u64MAX) ∧
    (v.productExceeds MB → (FileSize.Megabytes v).normalize_to_bytes = u64MAX) ∧
    (v.productExceeds GB → (FileSize.Gigabytes v).normalize_to_bytes = u64MAX) := by
  obtain ⟨fs, hfs⟩ := new_ok_of_valid v hge (u.toLower) hu
  refine ⟨?_, by with_unfolding_all rfl, rfl, ?_, ?_, ?_⟩
  · rw [modelMain_success prog a1 u v fs hp hge hu hfs]
  · exact fun h => normalize_sat v KB h
  · exact fun h => normalize_sat v MB h
  · exact fun h => normalize_sat v GB h

/-- C10 witness: the magnitude text inf with unit kb saturates the
byte count at u64MAX and the program exits with status 0. -/
theorem claim_c10_saturation_witness :
    (modelMain "p" ["inf", "kb"]).exitCode = 0 ∧
    (FileSize.Kilobytes F64.inf).normalize_to_bytes = u64MAX := by
  have h := claim_c10_saturation "p" "inf" "kb" F64.inf
    (by with_unfolding_all rfl) rfl (by with_unfolding_all rfl)
  exact ⟨h.1, h.2.2.2.1 True.intro⟩
